import Mathlib

/-!
# Verification of the calendar's core algorithms

A shallow embedding of the event-calendar code base:

* the interval model (`CalendarEvent`, `isMultiDayEvent`, day filters),
* the day/week layout engine (column packing in
  `day-view.tsx` / `week-view.tsx`),
* the drag-and-drop commit handler (`CalendarDndProvider.handleDragEnd`),
* the click-to-create minute rounding (`use-event-handlers.ts`),
* the visible-count estimator (`useEventVisibility`).

JavaScript `Date` values are naive local wall-clock instants; the code never
uses time zones, so a `Date` is embedded as its epoch-millisecond value
(`Int`).  Calendar-field accessors (`getFullYear`, `getMonth`, `getDate`)
are computed with the standard proleptic-Gregorian civil-from-days
conversion, exactly as a JS engine does for a zero-offset clock.
-/

/-- Milliseconds per day. -/
def MillisPerDay : Int := 86400000

/-- The day number (epoch days) containing an epoch-ms instant
(floor division, as JS day boundaries for a zero-offset clock). -/
def dayNumber (t : Int) : Int := Int.fdiv t MillisPerDay

/-- Milliseconds elapsed since the start of the instant's day; in
`[0, 86400000)`. -/
def msOfDay (t : Int) : Int := Int.fmod t MillisPerDay

/-- date-fns `startOfDay`: midnight of the instant's day. -/
def startOfDay (t : Int) : Int := t - msOfDay t

/-- JS `Date.prototype.getHours`. -/
def getHours (t : Int) : Int := Int.fdiv (msOfDay t) 3600000

/-- JS `Date.prototype.getMinutes`. -/
def getMinutes (t : Int) : Int := Int.fmod (Int.fdiv (msOfDay t) 60000) 60

/-- JS `Date.prototype.getSeconds`. -/
def getSeconds (t : Int) : Int := Int.fmod (Int.fdiv (msOfDay t) 1000) 60

/-- JS `Date.prototype.getMilliseconds`. -/
def getMilliseconds (t : Int) : Int := Int.fmod (msOfDay t) 1000

/-- Civil date (year, month `1..12`, day `1..31`) of an epoch day number;
the standard proleptic-Gregorian `civil_from_days` conversion used by JS
engines. -/
def civilFromDays (z0 : Int) : Int × Nat × Nat :=
  let z := z0 + 719468
  let era : Int := Int.fdiv z 146097
  let doe : Nat := (z - era * 146097).toNat
  let yoe : Nat := (doe - doe / 1460 + doe / 36524 - doe / 146096) / 365
  let y : Int := (yoe : Int) + era * 400
  let doy : Nat := doe - (365 * yoe + yoe / 4 - yoe / 100)
  let mp : Nat := (5 * doy + 2) / 153
  let d : Nat := doy - (153 * mp + 2) / 5 + 1
  let m : Nat := if mp < 10 then mp + 3 else mp - 9
  (if m ≤ 2 then y + 1 else y, m, d)

/-- JS `Date.prototype.getFullYear`. -/
def getFullYear (t : Int) : Int := (civilFromDays (dayNumber t)).1

/-- JS `Date.prototype.getMonth` (0-based, as in JS). -/
def getMonth (t : Int) : Int := ((civilFromDays (dayNumber t)).2.1 : Int) - 1

/-- JS `Date.prototype.getDate` (day of month, `1..31`). -/
def getDate (t : Int) : Nat := (civilFromDays (dayNumber t)).2.2

/-- Epoch day number of a civil date (year, month `1..12`, day); inverse
of `civilFromDays`. -/
def daysFromCivil (y0 : Int) (m : Nat) (d : Nat) : Int :=
  let y : Int := if m ≤ 2 then y0 - 1 else y0
  let era : Int := Int.fdiv y 400
  let yoe : Nat := (y - era * 400).toNat
  let mp : Nat := if 2 < m then m - 3 else m + 9
  let doy : Nat := (153 * mp + 2) / 5 + d - 1
  let doe : Nat := yoe * 365 + yoe / 4 - yoe / 100 + doy
  era * 146097 + (doe : Int) - 719468

/-- Build the epoch-ms instant for a civil datetime (month `1..12`);
used to write the concrete dates appearing in the scenarios. -/
def mkDate (y : Int) (mo d h mi s ms : Nat) : Int :=
  daysFromCivil y mo d * MillisPerDay +
    (h : Int) * 3600000 + (mi : Int) * 60000 + (s : Int) * 1000 + (ms : Int)

/-- date-fns `isSameDay`: the two instants fall on the same calendar day
(equal `startOfDay`, i.e. equal day number). -/
def isSameDay (a b : Int) : Bool := dayNumber a == dayNumber b

/-- JS `Date.prototype.setHours(h, m, s, ms)`: keep the calendar day,
replace the time of day; out-of-range components roll over arithmetically,
exactly as in JS. -/
def setHours (t h m s ms : Int) : Int :=
  startOfDay t + h * 3600000 + m * 60000 + s * 1000 + ms

/-- JS `Date.prototype.setMinutes(m)`: replace the minute component,
keeping hours, seconds and milliseconds (with arithmetic rollover). -/
def setMinutes (t m : Int) : Int := t + (m - getMinutes t) * 60000

/-- JS `Date.prototype.setSeconds(s)`. -/
def setSeconds (t s : Int) : Int := t + (s - getSeconds t) * 1000

/-- JS `Date.prototype.setMilliseconds(ms)`. -/
def setMilliseconds (t ms : Int) : Int := t + (ms - getMilliseconds t)

/-- date-fns `addMinutes` (ms arithmetic). -/
def addMinutes (t amount : Int) : Int := t + amount * 60000

/-- date-fns `differenceInMinutes` with the default `trunc` rounding:
the ms difference divided by 60000, rounded toward zero. -/
def differenceInMinutes (dateLeft dateRight : Int) : Int :=
  Int.tdiv (dateLeft - dateRight) 60000

/-- The view modes (`CalendarView` in `types.ts`; `agenda` exists in the
source but never reaches the drag-and-drop provider, whose view type is
`"month" | "week" | "day"`). -/
inductive CalendarView where
  | month
  | week
  | day
  | agenda
deriving DecidableEq

/-- `CalendarEvent` from `types.ts`.  `start`/`end` are `Date`s (epoch ms);
the optional `allDay` flag is a `Bool` here because the code only ever
tests its truthiness (absent = `false`).  The TS `end` field is called
`endTime` (`end` is a Lean keyword).  The optional display-only fields
are kept as `Option String` so that the object spread in the drop handler
visibly preserves them. -/
structure CalendarEvent where
  id : String
  title : String
  description : Option String
  start : Int
  endTime : Int
  allDay : Bool
  color : Option String
  location : Option String
deriving DecidableEq

/-- `isMultiDayEvent` from the calendar utils: `event.allDay ||
eventStart.getDate() !== eventEnd.getDate()`.  Note the source compares
only the day-of-month (`getDate`), not the full calendar day. -/
def isMultiDayEvent (event : CalendarEvent) : Bool :=
  event.allDay || decide (getDate event.start ≠ getDate event.endTime)

/-- date-fns `areIntervalsOverlapping` with default options (no
`inclusive`): each interval's endpoints are sorted, then the test is the
strict `leftStart < rightEnd && rightStart < leftEnd`.  Touching
endpoints do NOT count as overlapping. -/
def areIntervalsOverlapping (s1 e1 s2 e2 : Int) : Bool :=
  let leftStart := if s1 ≤ e1 then s1 else e1
  let leftEnd := if s1 ≤ e1 then e1 else s1
  let rightStart := if s2 ≤ e2 then s2 else e2
  let rightEnd := if s2 ≤ e2 then e2 else s2
  decide (leftStart < rightEnd) && decide (rightStart < leftEnd)

/-! ## Day/week layout engine

`DayView.positionedEvents` (`day-view.tsx`) and the per-day body of
`WeekView.processedDayEvents` (`week-view.tsx`) are the same algorithm
(the week view runs it once per day of the week); both are embedded as
`positionedEventsForDay`. -/

/-- `StartHour` from `constants.ts`. -/
def StartHour : ℚ := 0

/-- `EndHour` from `constants.ts`. -/
def EndHour : ℚ := 24

/-- `WeekCellsHeight` from `constants.ts` (px per hour row). -/
def WeekCellsHeight : ℚ := 72

/-- An occupant of a layout column: the event plus its day-clamped end
(`columns[i].push({ event, end: adjustedEnd })`). -/
structure ColumnEntry where
  event : CalendarEvent
  endTime : Int
deriving DecidableEq

/-- `PositionedEvent` of `day-view.tsx` / `week-view.tsx` (ephemeral
layout output). -/
structure PositionedEvent where
  event : CalendarEvent
  top : ℚ
  height : ℚ
  left : ℚ
  width : ℚ
  zIndex : Int
deriving DecidableEq

/-- The column index recorded in a positioned event
(`zIndex = 10 + columnIndex`). -/
def columnIndexOf (p : PositionedEvent) : Int := p.zIndex - 10

/-- Day-clamped start used for this day's layout
(`isSameDay(day, eventStart) ? eventStart : dayStart`). -/
def adjustedStart (day : Int) (event : CalendarEvent) : Int :=
  if isSameDay day event.start then event.start else startOfDay day

/-- Day-clamped end used for this day's layout
(`isSameDay(day, eventEnd) ? eventEnd : addHours(dayStart, 24)`). -/
def adjustedEnd (day : Int) (event : CalendarEvent) : Int :=
  if isSameDay day event.endTime then event.endTime
  else startOfDay day + 24 * 3600000

/-- `getHours(t) + getMinutes(t) / 60`, the fractional hour used by the
geometry. -/
def hourFraction (t : Int) : ℚ := (getHours t : ℚ) + (getMinutes t : ℚ) / 60

/-- Whether a column refuses the candidate interval: some occupant's
ORIGINAL interval (`c.event.start`/`c.event.end`, not the clamped one)
overlaps the candidate's clamped interval. -/
def columnBlocked (col : List ColumnEntry) (s e : Int) : Bool :=
  col.any fun c => areIntervalsOverlapping s e c.event.start c.event.endTime

/-- The `while (!placed)` scan: the first column index whose occupants do
not overlap the candidate; `cols.length` when every existing column is
blocked (a fresh column). -/
def firstFreeColumn (cols : List (List ColumnEntry)) (s e : Int) : Nat :=
  match cols with
  | [] => 0
  | col :: rest =>
    if columnBlocked col s e then firstFreeColumn rest s e + 1 else 0

/-- Append an occupant to column `i` (`columns[columnIndex] = col;
currentColumn.push(...)`).  The scan above always yields
`i ≤ cols.length`, so the fresh-column case is an append at the end. -/
def pushToColumn : List (List ColumnEntry) → Nat → ColumnEntry →
    List (List ColumnEntry)
  | [], _, c => [[c]]
  | col :: rest, 0, c => (col ++ [c]) :: rest
  | col :: rest, i + 1, c => col :: pushToColumn rest i c

/-- The mutable per-day state of the layout pass: the columns array and
the `positionedEvents`/`result` accumulator. -/
structure LayoutState where
  columns : List (List ColumnEntry)
  positioned : List PositionedEvent

/-- One iteration of `sortedEvents.forEach(...)`: clamp to the day,
compute the geometry, pick the first free column, record the occupant and
the positioned rectangle.  `width`/`left`/`zIndex` follow the fixed
cascade policy of the source. -/
def placeEvent (day : Int) (st : LayoutState) (event : CalendarEvent) :
    LayoutState :=
  let s := adjustedStart day event
  let e := adjustedEnd day event
  let startHour := hourFraction s
  let endHour := hourFraction e
  let top := (startHour - StartHour) * WeekCellsHeight
  let height := (endHour - startHour) * WeekCellsHeight
  let columnIndex := firstFreeColumn st.columns s e
  let width : ℚ := if columnIndex = 0 then 1 else 9 / 10
  let left : ℚ := if columnIndex = 0 then 0 else (columnIndex : ℚ) * (1 / 10)
  { columns := pushToColumn st.columns columnIndex ⟨event, e⟩
    positioned := st.positioned ++
      [⟨event, top, height, left, width, 10 + (columnIndex : Int)⟩] }

/-- The day-visibility filter of both views: the event starts or ends on
the day, or strictly spans it. -/
def eventVisibleOnDay (day : Int) (event : CalendarEvent) : Bool :=
  isSameDay day event.start || isSameDay day event.endTime ||
    (decide (event.start < day) && decide (day < event.endTime))

/-- The sort order of the layout pass: ascending start; ties broken by
longer (truncated-minute) duration first. -/
def layoutOrder (a b : CalendarEvent) : Prop :=
  a.start < b.start ∨
    (a.start = b.start ∧
      differenceInMinutes b.endTime b.start ≤
        differenceInMinutes a.endTime a.start)

instance : DecidableRel layoutOrder := fun a b => by
  unfold layoutOrder; infer_instance

/-- `DayView.positionedEvents` / one day of `WeekView.processedDayEvents`:
filter out all-day and multi-day events and events not visible on the
day, stable-sort by (start asc, duration desc), then run the greedy
column packing. -/
def positionedEventsForDay (day : Int) (events : List CalendarEvent) :
    List PositionedEvent :=
  let dayEvents := events.filter fun event =>
    !(event.allDay || isMultiDayEvent event) && eventVisibleOnDay day event
  let sortedEvents := List.insertionSort layoutOrder dayEvents
  (sortedEvents.foldl (placeEvent day) ⟨[], []⟩).positioned

/-! ## Visible-count estimator (`useEventVisibility`) -/

/-- `getVisibleEventCount` from `use-event-visibility.ts`.  The measured
`contentHeight` is `number | null`; JS `!contentHeight` is true both for
`null` (unmeasured) and for `0`, hence the explicit `h = 0` test.
`eventHeight`/`eventGap` are arbitrary numbers, `totalEvents` a list
length. -/
def getVisibleEventCount (contentHeight : Option Nat)
    (eventHeight eventGap : Int) (totalEvents : Nat) : Nat :=
  match contentHeight with
  | none => totalEvents
  | some h =>
    if h = 0 then totalEvents
    else
      let slot := eventHeight + eventGap
      if slot ≤ 0 then totalEvents
      else
        let maxEvents := h / slot.toNat
        if totalEvents ≤ maxEvents then totalEvents
        else if 0 < maxEvents then maxEvents - 1 else 0

/-! ## Drag-and-drop commit (`CalendarDndProvider`) -/

/-- The 15-minute snap of `handleDragOver`/`handleDragEnd`: fractional
hour below 0.125 → minute 0, below 0.375 → 15, below 0.625 → 30,
otherwise 45. -/
def snappedMinutes (fractionalHour : ℚ) : Int :=
  if fractionalHour < 1 / 8 then 0
  else if fractionalHour < 3 / 8 then 15
  else if fractionalHour < 5 / 8 then 30
  else 45

/-- The snap of `handleDragEnd` packaged as an hour-fraction →
hour-fraction map (decompose into `Math.floor` hour and fractional hour,
snap the minutes, recompose).  This is the `snapToGrid` of the spec for
the 15-minute bucket. -/
def snapToQuarterHour (time : ℚ) : ℚ :=
  let hours := ⌊time⌋
  let fractionalHour := time - hours
  (hours : ℚ) + (snappedMinutes fractionalHour : ℚ) / 60

/-- The drag-source payload (`active.data.current`); the drop handler
treats both the payload itself and its `event` field as possibly
missing. -/
structure ActiveDragData where
  event : Option CalendarEvent
  view : Option CalendarView
deriving DecidableEq

/-- The drop-target payload (`over.data.current`): the target day and the
optional fractional-hour time (`9.5 = 9:30`); absent time means a
month-view cell. -/
structure OverDragData where
  date : Option Int
  time : Option ℚ
deriving DecidableEq

/-- The auxiliary handle info stored in the DnD context. -/
structure DragHandlePositionData where
  isFirstDay : Option Bool
  isLastDay : Option Bool
deriving DecidableEq

/-- `dragHandlePosition` of the DnD context. -/
structure DragHandlePosition where
  x : Option Int
  y : Option Int
  data : Option DragHandlePositionData
deriving DecidableEq

/-- The drag-session state held by `CalendarDndProvider` (the eight
`useState` fields of `CalendarDndContextType`). -/
structure CalendarDndState where
  activeEvent : Option CalendarEvent
  activeId : Option String
  activeView : Option CalendarView
  currentTime : Option Int
  eventHeight : Option Int
  isMultiDay : Bool
  multiDayWidth : Option Int
  dragHandlePosition : Option DragHandlePosition
deriving DecidableEq

/-- The idle drag-session state: every field at its initial value (what
the eight `set...` calls of the reset paths produce). -/
def idleDndState : CalendarDndState :=
  { activeEvent := none
    activeId := none
    activeView := none
    currentTime := none
    eventHeight := none
    isMultiDay := false
    multiDayWidth := none
    dragHandlePosition := none }

/-- The `newStart` resolution of `handleDragEnd`: with a fractional-hour
`time` the hour is `Math.floor(time)` and the minutes are 15-minute
snapped, seconds/ms zeroed; without one (month-view drop) the date keeps
the provisional `currentTime`'s time of day. -/
def resolveNewStart (date : Int) (time : Option ℚ) (currentTime : Int) :
    Int :=
  match time with
  | some t =>
    let hours := ⌊t⌋
    let fractionalHour := t - hours
    let minutes := snappedMinutes fractionalHour
    setHours date hours minutes 0 0
  | none =>
    setHours date (getHours currentTime) (getMinutes currentTime)
      (getSeconds currentTime) (getMilliseconds currentTime)

/-- The minute-granularity change test of `handleDragEnd`
(`hasStartTimeChanged`): some of year, month, day-of-month, hour, minute
differs. -/
def differsAtMinuteGranularity (a b : Int) : Prop :=
  getFullYear a ≠ getFullYear b ∨ getMonth a ≠ getMonth b ∨
    getDate a ≠ getDate b ∨ getHours a ≠ getHours b ∨
    getMinutes a ≠ getMinutes b

instance : ∀ a b, Decidable (differsAtMinuteGranularity a b) := fun a b => by
  unfold differsAtMinuteGranularity; infer_instance

/-- `CalendarDndProvider.handleDragEnd` as a pure transition: from the
current session state, the drag-source payload and the drop payload
(`none` = no drop target, `some none` = target without data) to the
emitted `onEventUpdate` argument (at most one call) and the next state.
The source's thrown-and-caught `Error`s for missing payload fields are
the `none` emissions of the inner matches; every path ends in the
`finally` reset, so the next state is always `idleDndState` and nothing
escapes to the caller. -/
def handleDragEnd (st : CalendarDndState)
    (activeData : Option ActiveDragData)
    (over : Option (Option OverDragData)) :
    Option CalendarEvent × CalendarDndState :=
  match over, st.activeEvent, st.currentTime with
  | some overData, some _, some currentTime =>
    let emitted : Option CalendarEvent :=
      match activeData, overData with
      | some ad, some od =>
        match ad.event, od.date with
        | some calendarEvent, some date =>
          let newStart := resolveNewStart date od.time currentTime
          let originalStart := calendarEvent.start
          let originalEnd := calendarEvent.endTime
          let durationMinutes := differenceInMinutes originalEnd originalStart
          let newEnd := addMinutes newStart durationMinutes
          if differsAtMinuteGranularity originalStart newStart then
            some { calendarEvent with start := newStart, endTime := newEnd }
          else none
        | _, _ => none
      | _, _ => none
    (emitted, idleDndState)
  | _, _, _ => (none, idleDndState)

/-! ## Click-to-create minute rounding (`use-event-handlers.ts`) -/

/-- The 10-minute rounding of `handleEventCreate`: if the clicked start's
minutes are not a multiple of 10, round down below the 5-minute midpoint
and up at or above it, zeroing seconds and milliseconds; otherwise leave
the time untouched. -/
def handleEventCreateRounding (startTime : Int) : Int :=
  let minutes := getMinutes startTime
  let remainder := Int.tmod minutes 10
  if remainder ≠ 0 then
    let adjusted :=
      if remainder < 5 then setMinutes startTime (minutes - remainder)
      else setMinutes startTime (minutes + (10 - remainder))
    setMilliseconds (setSeconds adjusted 0) 0
  else startTime

/-! ## Concrete fixtures used by the scenarios below -/

/-- A timed one-hour event 2024-03-01T10:00–11:00 (scenario B's subject). -/
def eventB7 : CalendarEvent :=
  ⟨"e1", "meeting", none, mkDate 2024 3 1 10 0 0 0,
    mkDate 2024 3 1 11 0 0 0, false, none, none⟩

/-- A 30-second event (duration not a whole number of minutes). -/
def evShort : CalendarEvent :=
  ⟨"s", "S", none, mkDate 2024 3 1 10 0 0 0,
    mkDate 2024 3 1 10 0 30 0, false, none, none⟩

/-- Timed event 09:00–10:00 on 2024-03-04. -/
def evA : CalendarEvent :=
  ⟨"a", "A", none, mkDate 2024 3 4 9 0 0 0,
    mkDate 2024 3 4 10 0 0 0, false, none, none⟩

/-- Timed event 10:00–11:00 on 2024-03-04: its closed interval touches
`evA`'s at 10:00. -/
def evB : CalendarEvent :=
  ⟨"b", "B", none, mkDate 2024 3 4 10 0 0 0,
    mkDate 2024 3 4 11 0 0 0, false, none, none⟩

/-- Timed event 09:30–09:45 on 2024-03-04: strictly inside `evA`. -/
def evC : CalendarEvent :=
  ⟨"c", "C", none, mkDate 2024 3 4 9 30 0 0,
    mkDate 2024 3 4 9 45 0 0, false, none, none⟩

/-- A zero-duration event at 10:00 on 2024-03-04. -/
def evZ : CalendarEvent :=
  ⟨"z", "Z", none, mkDate 2024 3 4 10 0 0 0,
    mkDate 2024 3 4 10 0 0 0, false, none, none⟩

/-- The day cell 2024-03-04 (a start-of-day value, as produced by
`eachDayOfInterval`). -/
def day0 : Int := mkDate 2024 3 4 0 0 0 0

/-- A timed event crossing from March to April whose start and end share
the day-of-month 5. -/
def evMonthSpan : CalendarEvent :=
  ⟨"m", "M", none, mkDate 2024 3 5 10 0 0 0,
    mkDate 2024 4 5 10 0 0 0, false, none, none⟩

/-- A single-date all-day event (start and end both on 2024-05-02). -/
def evAllDay : CalendarEvent :=
  ⟨"h", "holiday", none, mkDate 2024 5 2 0 0 0 0,
    mkDate 2024 5 2 23 59 59 999, true, none, none⟩

/-- A fully populated mid-drag session state (used to check that cancel
paths clear every field). -/
def stMidDrag : CalendarDndState :=
  { activeEvent := some eventB7
    activeId := some "e1"
    activeView := some CalendarView.week
    currentTime := some (mkDate 2024 3 1 10 0 0 0)
    eventHeight := some 48
    isMultiDay := true
    multiDayWidth := some 80
    dragHandlePosition := some ⟨some 3, some 7, some ⟨some true, some false⟩⟩ }

/-! ## C10 -/

/-- C10: whenever the measured container height is `0` (JS-falsy, like the
unmeasured `null`), `getVisibleEventCount` returns the total item count —
everything is shown — rather than the `maxFit = 0` the documented formula
would give. -/
theorem c10_zero_height_shows_all (eventHeight eventGap : Int)
    (totalEvents : Nat) :
    getVisibleEventCount none eventHeight eventGap totalEvents = totalEvents ∧
    getVisibleEventCount (some 0) eventHeight eventGap totalEvents =
      totalEvents :=
  ⟨rfl, rfl⟩

/-! ## C8 -/

/-- C8 counterexample: `getVisibleEventCount` is NOT monotonically
non-decreasing in the container height over all heights: at height `0`
the JS-falsy fail-open returns all 6 items, while at height `1` it
returns 0 — the value drops as the height grows from 0 to 1. -/
theorem c8_counterexample :
    getVisibleEventCount (some 0) 30 4 6 = 6 ∧
    getVisibleEventCount (some 1) 30 4 6 = 0 ∧ ¬(6:Nat) ≤ 0 := by
  refine ⟨rfl, rfl, by decide⟩

/-- C8 (amended): the count never exceeds the total; it is monotonically
non-decreasing in the container height restricted to POSITIVE measured
heights (monotonicity fails from height 0, which fail-opens to the
total); and scenario D evaluates to 3. -/
theorem getVisibleEventCount_some (h : Nat) (eventHeight eventGap : Int)
    (totalEvents : Nat) :
    getVisibleEventCount (some h) eventHeight eventGap totalEvents =
      if h = 0 then totalEvents
      else if eventHeight + eventGap ≤ 0 then totalEvents
      else if totalEvents ≤ h / (eventHeight + eventGap).toNat then totalEvents
      else if 0 < h / (eventHeight + eventGap).toNat then
        h / (eventHeight + eventGap).toNat - 1
      else 0 := rfl

theorem c8_amended :
    (∀ (contentHeight : Option Nat) (eventHeight eventGap : Int)
        (totalEvents : Nat),
      getVisibleEventCount contentHeight eventHeight eventGap totalEvents ≤
        totalEvents) ∧
    (∀ (h1 h2 : Nat) (eventHeight eventGap : Int) (totalEvents : Nat),
      0 < h1 → h1 ≤ h2 →
      getVisibleEventCount (some h1) eventHeight eventGap totalEvents ≤
        getVisibleEventCount (some h2) eventHeight eventGap totalEvents) ∧
    getVisibleEventCount (some 140) 30 4 6 = 3 := by
  refine ⟨?_, ?_, rfl⟩
  · intro ch eh g n
    cases ch with
    | none => exact Nat.le_refl n
    | some h =>
      rw [getVisibleEventCount_some]
      set m := h / (eh + g).toNat with hm
      split_ifs <;> omega
  · intro h1 h2 eh g n h1pos h12
    rw [getVisibleEventCount_some, getVisibleEventCount_some]
    have hdiv : h1 / (eh + g).toNat ≤ h2 / (eh + g).toNat :=
      Nat.div_le_div_right h12
    set m1 := h1 / (eh + g).toNat
    set m2 := h2 / (eh + g).toNat
    split_ifs <;> omega

/-- C8 witness: the amended theorem at concrete inputs. -/
theorem c8_witness :
    getVisibleEventCount (some 100) 30 4 6 ≤ 6 ∧
    0 < (50:Nat) ∧ (50:Nat) ≤ 90 ∧
    getVisibleEventCount (some 50) 30 4 6 ≤
      getVisibleEventCount (some 90) 30 4 6 :=
  ⟨c8_amended.1 (some 100) 30 4 6, by decide, by decide,
    c8_amended.2.1 50 90 30 4 6 (by decide) (by decide)⟩

/-! ## C3 -/

/-- C3 counterexample: `evMonthSpan` runs from 2024-03-05 to 2024-04-05 —
different calendar days (different months) — yet `isMultiDayEvent`
returns `false`, because the source compares only `getDate()`
(day-of-month), refuting the claim's "different year, month, or
day-of-month" reading. -/
theorem c3_counterexample :
    isMultiDayEvent evMonthSpan = false ∧
    getMonth evMonthSpan.start ≠ getMonth evMonthSpan.endTime ∧
    evMonthSpan.allDay = false := by
  refine ⟨by decide, by decide, rfl⟩

/-- C3 (amended): `isMultiDayEvent e` is true iff `e.allDay` or the
DAY-OF-MONTH of start and end differ (events crossing a month boundary
with equal day-of-month are not flagged); a single-date all-day event is
still multi-day. -/
theorem c3_amended :
    (∀ e : CalendarEvent, isMultiDayEvent e = true ↔
        e.allDay = true ∨ getDate e.start ≠ getDate e.endTime) ∧
    (∀ e : CalendarEvent, e.allDay = true → isMultiDayEvent e = true) := by
  constructor
  · intro e
    simp [isMultiDayEvent]
  · intro e h
    simp [isMultiDayEvent, h]

/-- C3 witness: the amended theorem at the single-date all-day event. -/
theorem c3_witness :
    (isMultiDayEvent evAllDay = true ↔
      evAllDay.allDay = true ∨ getDate evAllDay.start ≠ getDate evAllDay.endTime) ∧
    evAllDay.allDay = true ∧ isMultiDayEvent evAllDay = true :=
  ⟨c3_amended.1 evAllDay, rfl, c3_amended.2 evAllDay rfl⟩

/-! ## C5 -/

theorem snapToQuarterHour_eq (time : ℚ) :
    snapToQuarterHour time =
      (⌊time⌋ : ℚ) + (snappedMinutes (time - ⌊time⌋) : ℚ) / 60 := rfl

theorem snappedMinutes_mem (x : ℚ) :
    snappedMinutes x = 0 ∨ snappedMinutes x = 15 ∨
      snappedMinutes x = 30 ∨ snappedMinutes x = 45 := by
  unfold snappedMinutes
  split_ifs <;> simp

theorem snapToQuarterHour_fixpoint (h m : Int)
    (hmem : m = 0 ∨ m = 15 ∨ m = 30 ∨ m = 45) :
    snapToQuarterHour ((h : ℚ) + (m : ℚ) / 60) = (h : ℚ) + (m : ℚ) / 60 := by
  have h0 : (0 : ℚ) ≤ (m : ℚ) / 60 := by
    rcases hmem with rfl | rfl | rfl | rfl <;> norm_num
  have h1 : ((m : ℚ) / 60) < 1 := by
    rcases hmem with rfl | rfl | rfl | rfl <;> norm_num
  have hfl : ⌊(h : ℚ) + (m : ℚ) / 60⌋ = h := by
    rw [Int.floor_int_add, Int.floor_eq_zero_iff.mpr ⟨h0, h1⟩, Int.add_zero]
  have harg : (h : ℚ) + (m : ℚ) / 60 - ((h : ℚ)) = (m : ℚ) / 60 := by ring
  have hsm : snappedMinutes ((m : ℚ) / 60) = m := by
    rcases hmem with rfl | rfl | rfl | rfl <;> norm_num [snappedMinutes]
  rw [snapToQuarterHour_eq, hfl, harg, hsm]

/-- C5: both snapping functions are idempotent.  The 15-minute
drag snap (`snapToQuarterHour`, thresholds 0.125/0.375/0.625 routing to
minutes 0/15/30/45) maps an already-snapped hour fraction to itself, and
the 10-minute click-to-create rounding leaves any time whose minutes are
already a multiple of 10 untouched. -/
theorem c5_snapping_idempotent :
    (∀ time : ℚ,
      snapToQuarterHour (snapToQuarterHour time) = snapToQuarterHour time) ∧
    (∀ startTime : Int, Int.tmod (getMinutes startTime) 10 = 0 →
      handleEventCreateRounding startTime = startTime) := by
  constructor
  · intro time
    rw [snapToQuarterHour_eq time]
    exact snapToQuarterHour_fixpoint ⌊time⌋ (snappedMinutes (time - ⌊time⌋))
      (snappedMinutes_mem (time - ⌊time⌋))
  · intro startTime hmul
    unfold handleEventCreateRounding
    simp [hmul]

/-- C5 witness: the idempotence statements at concrete inputs
(2024-04-10T09:20, whose minutes are a multiple of 10, and the hour
fraction `14.5`). -/
theorem c5_witness :
    Int.tmod (getMinutes (mkDate 2024 4 10 9 20 0 0)) 10 = 0 ∧
    handleEventCreateRounding (mkDate 2024 4 10 9 20 0 0) =
      mkDate 2024 4 10 9 20 0 0 ∧
    snapToQuarterHour (snapToQuarterHour (29 / 2)) =
      snapToQuarterHour (29 / 2) :=
  ⟨by decide, c5_snapping_idempotent.2 (mkDate 2024 4 10 9 20 0 0) (by decide),
    c5_snapping_idempotent.1 (29 / 2)⟩

/-! ## C4 -/

/-- C4: for every malformed drop — no drop target, a target or source
without payload data, a payload missing its event, or a payload missing
its date — `handleDragEnd` emits no `onEventUpdate` call and resets the
session to `idleDndState` (all eight fields at their idle values:
`activeEvent`, `activeId`, `activeView`, `currentTime`, `eventHeight`,
`isMultiDay`, `multiDayWidth`, `dragHandlePosition`).  The handler is a
total function — the source's thrown `Error`s are caught inside the
handler and never reach the caller. -/
theorem c4_malformed_drop_cancels (st : CalendarDndState)
    (activeData : Option ActiveDragData)
    (over : Option (Option OverDragData))
    (h : over = none ∨ over = some none ∨ activeData = none ∨
      (∃ ad, activeData = some ad ∧ ad.event = none) ∨
      (∃ od, over = some (some od) ∧ od.date = none)) :
    handleDragEnd st activeData over = (none, idleDndState) := by
  obtain ⟨ae, aid, av, ct, eh, imd, mdw, dhp⟩ := st
  rcases h with rfl | rfl | rfl | ⟨ad, rfl, had⟩ | ⟨od, rfl, hod⟩
  · cases ae <;> cases ct <;> rfl
  · cases ae <;> cases ct <;> cases activeData <;> rfl
  · cases over with
    | none => cases ae <;> cases ct <;> rfl
    | some od =>
      cases od <;> cases ae <;> cases ct <;> rfl
  · obtain ⟨adEvent, adView⟩ := ad
    cases had
    cases over with
    | none => cases ae <;> cases ct <;> rfl
    | some od =>
      cases od <;> cases ae <;> cases ct <;> rfl
  · obtain ⟨odDate, odTime⟩ := od
    cases hod
    cases ae <;> cases ct <;> cases activeData <;> try rfl
    next ad =>
      obtain ⟨adEvent, adView⟩ := ad
      cases adEvent <;> rfl

/-- C4 witness: a drop with no target while a fully populated drag
session is live. -/
theorem c4_witness :
    handleDragEnd stMidDrag (some ⟨some eventB7, some CalendarView.week⟩)
      none = (none, idleDndState) :=
  c4_malformed_drop_cancels stMidDrag
    (some ⟨some eventB7, some CalendarView.week⟩) none (Or.inl rfl)

/-! ## C6 -/

/-- C6: on a well-formed drop, the update callback is emitted iff the
resolved new start differs from the original start at minute granularity
(year, month, day-of-month, hour or minute differ — the five fields of
`hasStartTimeChanged`); in particular a drop resolving to the original
start's minute, or differing from it only in seconds/milliseconds, emits
nothing. -/
theorem c6_update_iff_minute_changed (st : CalendarDndState)
    (ae : CalendarEvent) (ct : Int) (ev : CalendarEvent)
    (view : Option CalendarView) (date : Int) (time : Option ℚ)
    (hae : st.activeEvent = some ae) (hct : st.currentTime = some ct) :
    (handleDragEnd st (some ⟨some ev, view⟩)
        (some (some ⟨some date, time⟩))).1 ≠ none ↔
      differsAtMinuteGranularity ev.start (resolveNewStart date time ct) := by
  obtain ⟨ae0, aid, av, ct0, eh, imd, mdw, dhp⟩ := st
  simp only at hae hct
  subst hae hct
  by_cases hd : differsAtMinuteGranularity ev.start (resolveNewStart date time ct)
  · simp only [handleDragEnd, if_pos hd]
    simp [hd]
  · simp only [handleDragEnd, if_neg hd]
    simp [hd]

/-- C6 witness: the equivalence at the scenario-B drop. -/
theorem c6_witness :
    (handleDragEnd
        { idleDndState with
            activeEvent := some eventB7
            currentTime := some (mkDate 2024 3 1 10 0 0 0) }
        (some ⟨some eventB7, some CalendarView.week⟩)
        (some (some ⟨some (mkDate 2024 3 3 0 0 0 0),
          some (14583 / 1000 : ℚ)⟩))).1 ≠ none ↔
      differsAtMinuteGranularity eventB7.start
        (resolveNewStart (mkDate 2024 3 3 0 0 0 0)
          (some (14583 / 1000 : ℚ)) (mkDate 2024 3 1 10 0 0 0)) :=
  c6_update_iff_minute_changed _ eventB7 (mkDate 2024 3 1 10 0 0 0) eventB7
    (some CalendarView.week) (mkDate 2024 3 3 0 0 0 0)
    (some (14583 / 1000 : ℚ)) rfl rfl

/-! ## C2 -/

theorem handleDragEnd_emits (st : CalendarDndState) (ae : CalendarEvent)
    (ct : Int) (ev : CalendarEvent) (view : Option CalendarView)
    (date : Int) (time : Option ℚ)
    (hae : st.activeEvent = some ae) (hct : st.currentTime = some ct)
    (hd : differsAtMinuteGranularity ev.start (resolveNewStart date time ct)) :
    (handleDragEnd st (some ⟨some ev, view⟩)
        (some (some ⟨some date, time⟩))).1 =
      some { ev with
        start := resolveNewStart date time ct
        endTime := addMinutes (resolveNewStart date time ct)
          (differenceInMinutes ev.endTime ev.start) } := by
  obtain ⟨ae0, aid, av, ct0, eh, imd, mdw, dhp⟩ := st
  simp only at hae hct
  subst hae hct
  simp only [handleDragEnd, if_pos hd]

theorem resolveNewStart_ten :
    resolveNewStart (mkDate 2024 3 2 0 0 0 0) (some (10 : ℚ))
      evShort.start = mkDate 2024 3 2 10 0 0 0 := by
  have hfl : ⌊(10 : ℚ)⌋ = (10 : Int) := by norm_num
  simp only [resolveNewStart, hfl]
  have hsm : snappedMinutes ((10 : ℚ) - ((10 : Int) : ℚ)) = 0 := by
    norm_num [snappedMinutes]
  rw [hsm]
  decide

/-- C2 counterexample: the 30-second event `evShort`, dropped on another
day, is committed with `newEnd - newStart = 0` — the duration is NOT
preserved exactly, because `differenceInMinutes` truncates the original
30-second duration to 0 whole minutes. -/
theorem c2_counterexample :
    (handleDragEnd
        { idleDndState with
            activeEvent := some evShort
            currentTime := some evShort.start }
        (some ⟨some evShort, some CalendarView.week⟩)
        (some (some ⟨some (mkDate 2024 3 2 0 0 0 0), some (10 : ℚ)⟩))).1 =
      some { evShort with
        start := mkDate 2024 3 2 10 0 0 0
        endTime := mkDate 2024 3 2 10 0 0 0 } ∧
    evShort.endTime - evShort.start = 30000 ∧
    mkDate 2024 3 2 10 0 0 0 - mkDate 2024 3 2 10 0 0 0 ≠ 30000 := by
  refine ⟨?_, by decide, by decide⟩
  rw [handleDragEnd_emits _ evShort evShort.start evShort
    (some CalendarView.week) (mkDate 2024 3 2 0 0 0 0) (some (10 : ℚ))
    rfl rfl (by rw [resolveNewStart_ten]; decide)]
  rw [resolveNewStart_ten]
  decide

/-- C2 (amended): every committed event's start is resolved from the drop
payload's own date/time (the original event, never the provisional drag
state, supplies the duration), and its duration equals the ORIGINAL
duration truncated to whole minutes — `60000 * trunc((end-start)/60000)`
— which is the exact original duration whenever that duration is a whole
number of minutes, but not for fractional-minute durations. -/
theorem c2_amended (st : CalendarDndState) (ae : CalendarEvent) (ct : Int)
    (ev : CalendarEvent) (view : Option CalendarView) (date : Int)
    (time : Option ℚ) (u : CalendarEvent)
    (hae : st.activeEvent = some ae) (hct : st.currentTime = some ct)
    (hu : (handleDragEnd st (some ⟨some ev, view⟩)
        (some (some ⟨some date, time⟩))).1 = some u) :
    u.start = resolveNewStart date time ct ∧
    u.endTime - u.start = 60000 * Int.tdiv (ev.endTime - ev.start) 60000 ∧
    ((60000 : Int) ∣ ev.endTime - ev.start →
      u.endTime - u.start = ev.endTime - ev.start) := by
  obtain ⟨ae0, aid, av, ct0, eh, imd, mdw, dhp⟩ := st
  simp only at hae hct
  subst hae hct
  by_cases hd : differsAtMinuteGranularity ev.start (resolveNewStart date time ct)
  · simp only [handleDragEnd, if_pos hd] at hu
    obtain rfl := (Option.some.injEq _ _).mp hu.symm |>.symm
    refine ⟨rfl, ?_, ?_⟩
    · show addMinutes (resolveNewStart date time ct)
          (differenceInMinutes ev.endTime ev.start) -
          resolveNewStart date time ct = _
      unfold addMinutes differenceInMinutes
      ring
    · intro hdvd
      show addMinutes (resolveNewStart date time ct)
          (differenceInMinutes ev.endTime ev.start) -
          resolveNewStart date time ct = _
      unfold addMinutes differenceInMinutes
      rw [add_sub_cancel_left, mul_comm]
      exact Int.mul_tdiv_cancel' hdvd
  · simp only [handleDragEnd, if_neg hd] at hu
    exact absurd hu (by simp)

/-- The event the month-path witness drop commits. -/
def uW2 : CalendarEvent :=
  { eventB7 with
    start := mkDate 2024 3 5 10 0 0 0
    endTime := mkDate 2024 3 5 11 0 0 0 }

/-- C2 witness: the amended theorem at a concrete month-view drop of the
one-hour event onto 2024-03-05. -/
theorem c2_witness :
    (handleDragEnd
        { idleDndState with
            activeEvent := some eventB7
            currentTime := some (mkDate 2024 3 1 10 0 0 0) }
        (some ⟨some eventB7, some CalendarView.month⟩)
        (some (some ⟨some (mkDate 2024 3 5 0 0 0 0), none⟩))).1 =
      some uW2 ∧
    uW2.start =
      resolveNewStart (mkDate 2024 3 5 0 0 0 0) none
        (mkDate 2024 3 1 10 0 0 0) ∧
    uW2.endTime - uW2.start =
      60000 * Int.tdiv (eventB7.endTime - eventB7.start) 60000 := by
  have hu : (handleDragEnd
      { idleDndState with
          activeEvent := some eventB7
          currentTime := some (mkDate 2024 3 1 10 0 0 0) }
      (some ⟨some eventB7, some CalendarView.month⟩)
      (some (some ⟨some (mkDate 2024 3 5 0 0 0 0), none⟩))).1 = some uW2 := by
    decide
  have h2 := c2_amended _ eventB7 (mkDate 2024 3 1 10 0 0 0) eventB7
    (some CalendarView.month) (mkDate 2024 3 5 0 0 0 0) none uW2 rfl rfl hu
  exact ⟨hu, h2.1, h2.2.1⟩

/-! ## C7 -/

/-- C7: dropping the event `(2024-03-01T10:00, 2024-03-01T11:00)` onto
the target `{date: 2024-03-03, time: 14.583}` snaps the fractional hour
0.583 to minute 30 (the 0.375–0.625 band) and emits exactly one update
with `start = 2024-03-03T14:30` and `end = 2024-03-03T15:30`. -/
theorem resolveNewStart_scenario_b :
    resolveNewStart (mkDate 2024 3 3 0 0 0 0) (some (14583 / 1000 : ℚ))
      eventB7.start = mkDate 2024 3 3 14 30 0 0 := by
  have hfl : ⌊(14583 / 1000 : ℚ)⌋ = (14 : Int) := by norm_num
  simp only [resolveNewStart, hfl]
  have hsm : snappedMinutes ((14583 / 1000 : ℚ) - ((14 : Int) : ℚ)) = 30 := by
    norm_num [snappedMinutes]
  rw [hsm]
  decide

theorem c7_scenario_b :
    (handleDragEnd
        { idleDndState with
            activeEvent := some eventB7
            currentTime := some eventB7.start }
        (some ⟨some eventB7, some CalendarView.week⟩)
        (some (some ⟨some (mkDate 2024 3 3 0 0 0 0),
          some (14583 / 1000 : ℚ)⟩))).1 =
      some { eventB7 with
        start := mkDate 2024 3 3 14 30 0 0
        endTime := mkDate 2024 3 3 15 30 0 0 } := by
  rw [handleDragEnd_emits _ eventB7 eventB7.start eventB7
    (some CalendarView.week) (mkDate 2024 3 3 0 0 0 0)
    (some (14583 / 1000 : ℚ)) rfl rfl
    (by rw [resolveNewStart_scenario_b]; decide)]
  rw [resolveNewStart_scenario_b]
  decide

/-! ## C1 and C9: the layout engine -/

theorem areIntervalsOverlapping_comm (s1 e1 s2 e2 : Int) :
    areIntervalsOverlapping s1 e1 s2 e2 =
      areIntervalsOverlapping s2 e2 s1 e1 := by
  simp only [areIntervalsOverlapping]
  rw [Bool.and_comm]

theorem firstFreeColumn_le_length (cols : List (List ColumnEntry))
    (s e : Int) : firstFreeColumn cols s e ≤ cols.length := by
  induction cols with
  | nil => exact Nat.le_refl 0
  | cons col rest ih =>
    by_cases h : columnBlocked col s e
    · simp only [firstFreeColumn, if_pos h, List.length_cons]
      exact Nat.succ_le_succ ih
    · simp only [firstFreeColumn, if_neg h]
      exact Nat.zero_le _

theorem firstFreeColumn_not_blocked (cols : List (List ColumnEntry))
    (s e : Int) :
    columnBlocked (cols.getD (firstFreeColumn cols s e) []) s e = false := by
  induction cols with
  | nil => rfl
  | cons col rest ih =>
    by_cases h : columnBlocked col s e
    · simp only [firstFreeColumn, if_pos h, List.getD_cons_succ]
      exact ih
    · simp only [firstFreeColumn, if_neg h, List.getD_cons_zero]
      exact Bool.eq_false_iff.mpr h

theorem pushToColumn_getD_self (cols : List (List ColumnEntry)) (i : Nat)
    (c : ColumnEntry) (h : i ≤ cols.length) :
    (pushToColumn cols i c).getD i [] = cols.getD i [] ++ [c] := by
  induction cols generalizing i with
  | nil =>
    obtain rfl : i = 0 := Nat.le_zero.mp h
    rfl
  | cons col rest ih =>
    cases i with
    | zero => rfl
    | succ j =>
      simp only [pushToColumn, List.getD_cons_succ]
      exact ih j (Nat.le_of_succ_le_succ h)

theorem pushToColumn_getD_ne (cols : List (List ColumnEntry)) (i : Nat)
    (c : ColumnEntry) (j : Nat) (hle : i ≤ cols.length) (hne : j ≠ i) :
    (pushToColumn cols i c).getD j [] = cols.getD j [] := by
  induction cols generalizing i j with
  | nil =>
    obtain rfl : i = 0 := Nat.le_zero.mp hle
    cases j with
    | zero => exact absurd rfl hne
    | succ k => rfl
  | cons col rest ih =>
    cases i with
    | zero =>
      cases j with
      | zero => exact absurd rfl hne
      | succ k => rfl
    | succ i2 =>
      cases j with
      | zero => rfl
      | succ k =>
        simp only [pushToColumn, List.getD_cons_succ]
        exact ih i2 k (Nat.le_of_succ_le_succ hle) fun hh => hne (by rw [hh])

theorem columnBlocked_eq_false_iff (col : List ColumnEntry) (s e : Int) :
    columnBlocked col s e = false ↔
      ∀ c ∈ col,
        areIntervalsOverlapping s e c.event.start c.event.endTime = false := by
  simp [columnBlocked, List.any_eq_false]

/-- The column-occupant record pushed for an event on a given day. -/
def entryOf (day : Int) (event : CalendarEvent) : ColumnEntry :=
  ⟨event, adjustedEnd day event⟩

/-- The column index as a `Nat` (inverse of `zIndex = 10 + columnIndex`). -/
def natColumnOf (p : PositionedEvent) : Nat := (p.zIndex - 10).toNat

/-- When `q` was placed after `p` into the same column, the scan had
verified that `q`'s day-clamped interval does not overlap `p`'s original
interval. -/
def noAdjOverlapAfter (day : Int) (p q : PositionedEvent) : Prop :=
  p.zIndex = q.zIndex →
    areIntervalsOverlapping (adjustedStart day q.event)
      (adjustedEnd day q.event) p.event.start p.event.endTime = false

/-- Invariant of the layout fold: every positioned event's occupant
record sits in its column, and later placements never overlap (in the
clamped-vs-original sense checked by the scan) earlier occupants of the
same column. -/
def layoutInvariant (day : Int) (st : LayoutState) : Prop :=
  (∀ p ∈ st.positioned,
      entryOf day p.event ∈ st.columns.getD (natColumnOf p) []) ∧
  List.Pairwise (noAdjOverlapAfter day) st.positioned

theorem placeEvent_positioned_structure (day : Int) (st : LayoutState)
    (event : CalendarEvent) :
    ∃ newP : PositionedEvent,
      (placeEvent day st event).positioned = st.positioned ++ [newP] ∧
      newP.event = event ∧
      newP.zIndex = 10 + (firstFreeColumn st.columns
        (adjustedStart day event) (adjustedEnd day event) : Int) ∧
      newP.height = (hourFraction (adjustedEnd day event) -
        hourFraction (adjustedStart day event)) * WeekCellsHeight :=
  ⟨_, rfl, rfl, rfl, rfl⟩

theorem placeEvent_columns (day : Int) (st : LayoutState)
    (event : CalendarEvent) :
    (placeEvent day st event).columns =
      pushToColumn st.columns
        (firstFreeColumn st.columns (adjustedStart day event)
          (adjustedEnd day event))
        (entryOf day event) := rfl

theorem placeEvent_invariant (day : Int) (st : LayoutState)
    (event : CalendarEvent) (h : layoutInvariant day st) :
    layoutInvariant day (placeEvent day st event) := by
  obtain ⟨hmem, hpw⟩ := h
  have hle := firstFreeColumn_le_length st.columns (adjustedStart day event)
    (adjustedEnd day event)
  have hnb := firstFreeColumn_not_blocked st.columns (adjustedStart day event)
    (adjustedEnd day event)
  obtain ⟨newP, hpos, hev, hz, hh⟩ := placeEvent_positioned_structure day st event
  constructor
  · intro p hp
    rw [placeEvent_columns]
    rw [hpos] at hp
    rcases List.mem_append.mp hp with hold | hnew
    · by_cases hji : natColumnOf p =
        firstFreeColumn st.columns (adjustedStart day event) (adjustedEnd day event)
      · rw [hji, pushToColumn_getD_self _ _ _ hle]
        exact List.mem_append_left _ (hji ▸ hmem p hold)
      · rw [pushToColumn_getD_ne _ _ _ _ hle hji]
        exact hmem p hold
    · have hq : p = newP := by simpa using hnew
      subst hq
      have hcol : natColumnOf p =
          firstFreeColumn st.columns (adjustedStart day event)
            (adjustedEnd day event) := by
        rw [natColumnOf, hz]; omega
      rw [hcol, pushToColumn_getD_self _ _ _ hle]
      apply List.mem_append_right
      rw [entryOf, hev]
      exact List.mem_singleton.mpr rfl
  · rw [hpos]
    apply List.pairwise_append.mpr
    refine ⟨hpw, List.pairwise_singleton _ _, ?_⟩
    intro p hpold q hqnew
    have hq : q = newP := by simpa using hqnew
    subst hq
    intro hzz
    have hcolp : natColumnOf p =
        firstFreeColumn st.columns (adjustedStart day event)
          (adjustedEnd day event) := by
      rw [natColumnOf, hzz, hz]; omega
    have hpmem := hmem p hpold
    rw [hcolp] at hpmem
    have hall := (columnBlocked_eq_false_iff _ (adjustedStart day event)
      (adjustedEnd day event)).mp hnb
    have hfalse := hall (entryOf day p.event) hpmem
    rw [hev]
    exact hfalse

theorem foldl_layoutInvariant (day : Int) (l : List CalendarEvent)
    (st : LayoutState) (h : layoutInvariant day st) :
    layoutInvariant day (l.foldl (placeEvent day) st) := by
  induction l generalizing st with
  | nil => exact h
  | cons a t ih => exact ih _ (placeEvent_invariant day st a h)

theorem positionedEventsForDay_pairwise (day : Int)
    (events : List CalendarEvent) :
    List.Pairwise (noAdjOverlapAfter day)
      (positionedEventsForDay day events) :=
  (foldl_layoutInvariant day _ ⟨[], []⟩
    ⟨fun p hp => absurd hp (List.not_mem_nil p), List.Pairwise.nil⟩).2

/-- C1 counterexample: on 2024-03-04 the events 09:00–10:00 and
10:00–11:00 — whose CLOSED intervals intersect at the shared endpoint
10:00 — are both assigned column 0: the packing uses date-fns's strict
`areIntervalsOverlapping` (no `inclusive`), so touching endpoints do not
force separate columns. -/
theorem c1_counterexample :
    ((positionedEventsForDay day0 [evA, evB]).map fun p =>
        (p.event.id, columnIndexOf p)) = [("a", 0), ("b", 0)] ∧
    evA.endTime = evB.start ∧
    evA.allDay = false ∧ evB.allDay = false ∧
    isMultiDayEvent evA = false ∧ isMultiDayEvent evB = false ∧
    isSameDay day0 evA.start = true ∧ isSameDay day0 evA.endTime = true ∧
    isSameDay day0 evB.start = true ∧ isSameDay day0 evB.endTime = true := by
  decide

/-- C1 (amended): for events laid out on a day on which they both start
and end, the greedy column packing never assigns the same column to two
events whose intervals STRICTLY overlap (each starts before the other
ends, i.e. date-fns `areIntervalsOverlapping` without `inclusive`);
events whose closed intervals merely touch at an endpoint may share a
column. -/
theorem c1_strict_overlap_distinct_columns (day : Int)
    (events : List CalendarEvent) (p q : PositionedEvent)
    (hp : p ∈ positionedEventsForDay day events)
    (hq : q ∈ positionedEventsForDay day events)
    (hne : p.event ≠ q.event)
    (hps : isSameDay day p.event.start = true)
    (hpe : isSameDay day p.event.endTime = true)
    (hqs : isSameDay day q.event.start = true)
    (hqe : isSameDay day q.event.endTime = true)
    (hov : areIntervalsOverlapping p.event.start p.event.endTime
      q.event.start q.event.endTime = true) :
    columnIndexOf p ≠ columnIndexOf q := by
  intro hcol
  have hz : p.zIndex = q.zIndex := by
    unfold columnIndexOf at hcol; omega
  have hpwT : List.Pairwise (fun a b : PositionedEvent =>
      a.zIndex = b.zIndex →
        (areIntervalsOverlapping (adjustedStart day b.event)
            (adjustedEnd day b.event) a.event.start a.event.endTime = false ∨
          areIntervalsOverlapping (adjustedStart day a.event)
            (adjustedEnd day a.event) b.event.start b.event.endTime = false))
      (positionedEventsForDay day events) :=
    (positionedEventsForDay_pairwise day events).imp fun h hzz =>
      Or.inl (h hzz)
  have hsymm : Symmetric (fun a b : PositionedEvent =>
      a.zIndex = b.zIndex →
        (areIntervalsOverlapping (adjustedStart day b.event)
            (adjustedEnd day b.event) a.event.start a.event.endTime = false ∨
          areIntervalsOverlapping (adjustedStart day a.event)
            (adjustedEnd day a.event) b.event.start b.event.endTime = false)) := by
    intro a b hab hzz
    rcases hab hzz.symm with h | h
    · exact Or.inr h
    · exact Or.inl h
  have hne2 : p ≠ q := fun hh => hne (by rw [hh])
  have haps : adjustedStart day p.event = p.event.start := by
    simp [adjustedStart, hps]
  have hape : adjustedEnd day p.event = p.event.endTime := by
    simp [adjustedEnd, hpe]
  have haqs : adjustedStart day q.event = q.event.start := by
    simp [adjustedStart, hqs]
  have haqe : adjustedEnd day q.event = q.event.endTime := by
    simp [adjustedEnd, hqe]
  rcases List.Pairwise.forall hsymm hpwT hp hq hne2 hz with h | h
  · rw [haqs, haqe, areIntervalsOverlapping_comm] at h
    rw [hov] at h
    exact absurd h (by decide)
  · rw [haps, hape] at h
    rw [hov] at h
    exact absurd h (by decide)

/-- The layout of the strictly-overlapping pair `evA` (09:00–10:00) and
`evC` (09:30–09:45) on 2024-03-04. -/
def layoutAC : List PositionedEvent := positionedEventsForDay day0 [evA, evC]

/-- The first rectangle of `layoutAC` (the one for `evA`). -/
def pA : PositionedEvent := layoutAC.get ⟨0, by decide⟩

/-- The second rectangle of `layoutAC` (the one for `evC`). -/
def pC : PositionedEvent := layoutAC.get ⟨1, by decide⟩

/-- C1 witness: the amended theorem at the concrete pair `evA`/`evC`. -/
theorem c1_witness :
    pA.event ≠ pC.event ∧
    isSameDay day0 pA.event.start = true ∧
    isSameDay day0 pA.event.endTime = true ∧
    isSameDay day0 pC.event.start = true ∧
    isSameDay day0 pC.event.endTime = true ∧
    areIntervalsOverlapping pA.event.start pA.event.endTime
      pC.event.start pC.event.endTime = true ∧
    columnIndexOf pA ≠ columnIndexOf pC :=
  ⟨by decide, by decide, by decide, by decide, by decide, by decide,
    c1_strict_overlap_distinct_columns day0 [evA, evC] pA pC
      (List.get_mem layoutAC 0 (by decide)) (List.get_mem layoutAC 1 (by decide))
      (by decide) (by decide) (by decide) (by decide) (by decide) (by decide)⟩

theorem positioned_height (day : Int) (events : List CalendarEvent)
    (p : PositionedEvent) (hp : p ∈ positionedEventsForDay day events) :
    p.height = (hourFraction (adjustedEnd day p.event) -
      hourFraction (adjustedStart day p.event)) * WeekCellsHeight := by
  suffices h : ∀ (l : List CalendarEvent) (st : LayoutState),
      (∀ q ∈ st.positioned, q.height =
        (hourFraction (adjustedEnd day q.event) -
          hourFraction (adjustedStart day q.event)) * WeekCellsHeight) →
      ∀ q ∈ (l.foldl (placeEvent day) st).positioned, q.height =
        (hourFraction (adjustedEnd day q.event) -
          hourFraction (adjustedStart day q.event)) * WeekCellsHeight by
    exact h _ ⟨[], []⟩ (fun q hq => absurd hq (List.not_mem_nil q)) p hp
  intro l
  induction l with
  | nil => exact fun st hst q hq => hst q hq
  | cons a t ih =>
    intro st hst
    apply ih
    intro q hq
    obtain ⟨newP, hpos, hev, hz, hh⟩ := placeEvent_positioned_structure day st a
    rw [hpos] at hq
    rcases List.mem_append.mp hq with h1 | h1
    · exact hst q h1
    · have hq2 : q = newP := by simpa using h1
      subst hq2
      rw [hh, hev]

/-- C9 (amended): a zero-duration event laid out on its own day gets a
computed rectangle height of EXACTLY 0 — the engine computes
`(endHourFraction - startHourFraction) * WeekCellsHeight` with no
minimum-height floor. -/
theorem c9_zero_duration_zero_height (day : Int)
    (events : List CalendarEvent) (p : PositionedEvent)
    (hp : p ∈ positionedEventsForDay day events)
    (hz : p.event.start = p.event.endTime)
    (hs : isSameDay day p.event.start = true) :
    p.height = 0 := by
  rw [positioned_height day events p hp]
  have h1 : adjustedStart day p.event = p.event.start := by
    simp [adjustedStart, hs]
  have h2 : adjustedEnd day p.event = p.event.endTime := by
    simp [adjustedEnd, hz ▸ hs]
  rw [h1, h2, hz]
  ring

/-- The rectangle the layout engine produces for the zero-duration event
`evZ` on its day. -/
def pZ : PositionedEvent :=
  (positionedEventsForDay day0 [evZ]).get ⟨0, by decide⟩

/-- C9 counterexample: the zero-duration event `evZ` is positioned with
height exactly 0 — not floored at any positive minimum render height. -/
theorem c9_counterexample :
    pZ.event.start = pZ.event.endTime ∧ pZ.height = 0 := by
  have hsd : isSameDay day0 pZ.event.start = true := by decide
  have hz0 : pZ.event.start = pZ.event.endTime := by decide
  refine ⟨hz0, ?_⟩
  rw [positioned_height day0 [evZ] pZ
    (List.get_mem (positionedEventsForDay day0 [evZ]) 0 (by decide))]
  rw [show adjustedStart day0 pZ.event = pZ.event.start by
        simp [adjustedStart, hsd],
      show adjustedEnd day0 pZ.event = pZ.event.endTime by
        simp [adjustedEnd, hz0 ▸ hsd],
      hz0]
  ring

/-- C9 witness: the amended theorem at the concrete rectangle `pZ`. -/
theorem c9_witness :
    pZ.event.start = pZ.event.endTime ∧
    isSameDay day0 pZ.event.start = true ∧ pZ.height = 0 :=
  ⟨by decide, by decide,
    c9_zero_duration_zero_height day0 [evZ] pZ
      (List.get_mem (positionedEventsForDay day0 [evZ]) 0 (by decide))
      (by decide) (by decide)⟩
